import Mathlib

/-!
Verification of the dotstarter-sdk transaction, amount, governance and staking
logic.

The definitions below are a shallow embedding of the TypeScript source:
  - `src/chain.ts`      (ChainManager: transfer and its status callback)
  - `src/staking.ts`    (StakingManager: getStakingInfo, bond / bondExtra / unbond)
  - `src/governance.ts` (GovernanceManager: proposals, referenda, voting)
  - `src/utils/constants.ts` (per-network decimals)

JavaScript `number` arithmetic is modelled as IEEE-754 binary64 arithmetic
over exact fractions (round to nearest, ties to even; the exponent range is
left unbounded, which is faithful for every normal, non-overflowing magnitude
exercised here).  JavaScript `BigInt` is modelled as `Int`.
-/

deriving instance DecidableEq for Except

namespace DotStarter

/-! ### Exact fractions

`Frac` is an unreduced fraction `num / den`.  All operations keep the
denominator positive; every function below is kernel-computable, so concrete
claims evaluate by `decide`. -/

structure Frac where
  num : Int
  den : Nat
  deriving DecidableEq, Repr

/-- The rational value of a fraction. -/
def Frac.toRat (x : Frac) : ℚ := (x.num : ℚ) / (x.den : ℚ)

/-- Value equality of two fractions (cross multiplication). -/
def Frac.eqv (a b : Frac) : Prop := a.num * (b.den : Int) = b.num * (a.den : Int)

instance (a b : Frac) : Decidable (a.eqv b) := by
  unfold Frac.eqv; infer_instance

/-- Product of two fractions. -/
def Frac.mul (a b : Frac) : Frac := ⟨a.num * b.num, a.den * b.den⟩

/-- `⌊value⌋` of a fraction with positive denominator. -/
def Frac.floor (a : Frac) : Int := Int.fdiv a.num (a.den : Int)

/-- `1 ≤ a`, assuming a positive denominator. -/
def Frac.oneLe (a : Frac) : Bool := (a.den : Int) ≤ a.num

/-- `2 ≤ a`, assuming a positive denominator. -/
def Frac.twoLe (a : Frac) : Bool := 2 * (a.den : Int) ≤ a.num

/-- `a / 2`. -/
def Frac.half (a : Frac) : Frac := ⟨a.num, a.den * 2⟩

/-- `a * 2`. -/
def Frac.double (a : Frac) : Frac := ⟨a.num * 2, a.den⟩

/-- `a / 2 ^ e` for an integer exponent `e`. -/
def Frac.divPow2 (a : Frac) (e : Int) : Frac :=
  if 0 ≤ e then ⟨a.num, a.den * 2 ^ e.toNat⟩ else ⟨a.num * 2 ^ (-e).toNat, a.den⟩

/-- The fraction `m * 2 ^ e`. -/
def Frac.ofIntPow2 (m : Int) (e : Int) : Frac :=
  if 0 ≤ e then ⟨m * 2 ^ e.toNat, 1⟩ else ⟨m, 2 ^ (-e).toNat⟩

/-! ### IEEE-754 binary64 rounding -/

/-- Largest `k` with `2 ^ k ≤ a`, for `1 ≤ a` (fuel-driven so the kernel can
evaluate it; the fuel covers the full binary64 exponent range). -/
def ilog2up : Nat → Frac → Nat
  | 0, _ => 0
  | f + 1, a => if a.twoLe then ilog2up f a.half + 1 else 0

/-- Smallest `k` with `1 ≤ a * 2 ^ k`, for `0 < a < 1` (fuel-driven). -/
def ilog2down : Nat → Frac → Nat
  | 0, _ => 0
  | f + 1, a => if a.oneLe then 0 else ilog2down f a.double + 1

/-- `⌊log₂ a⌋` for a positive fraction `a`. -/
def fracLog2 (a : Frac) : Int :=
  if a.oneLe then (ilog2up 4400 a : Int) else -(ilog2down 4400 a : Int)

/-- Round a fraction (with positive denominator) to the nearest integer, ties
to even. -/
def rnEven (a : Frac) : Int :=
  let f := Int.fdiv a.num (a.den : Int)
  let r := a.num - f * (a.den : Int)
  if 2 * r < (a.den : Int) then f
  else if (a.den : Int) < 2 * r then f + 1
  else if f % 2 = 0 then f else f + 1

/-- Round a fraction to the nearest IEEE-754 binary64 value: 53-bit mantissa,
round to nearest, ties to even, unbounded exponent range. -/
def fl64 (q : Frac) : Frac :=
  if q.num = 0 then ⟨0, 1⟩
  else
    let a : Frac := ⟨|q.num|, q.den⟩
    let e : Int := fracLog2 a - 52
    let mr : Int := rnEven (a.divPow2 e)
    let s : Int := if 0 < q.num then 1 else -1
    Frac.ofIntPow2 (s * mr) e

/-- `q` is exactly representable as a binary64 value. -/
def isFloat64 (q : Frac) : Prop := (fl64 q).eqv q

instance (q : Frac) : Decidable (isFloat64 q) := by
  unfold isFloat64; infer_instance

/-- The binary64 value nearest to one tenth (`0.1` in JavaScript source text):
`3602879701896397 / 2^55`. -/
def tenthF : Frac := ⟨3602879701896397, 36028797018963968⟩

/-! ### Amount conversion

Embeds the amount handling of `ChainManager.transfer` (src/chain.ts),
`StakingManager.bond` / `bondExtra` / `unbond` (src/staking.ts) and
`GovernanceManager.voteOnReferendum` / `submitTreasuryProposal`
(src/governance.ts). -/

/-- An amount argument: TypeScript `string | number`.  A `num` carries the
exact value of the binary64 argument. -/
inductive Amt where
  | str (s : String)
  | num (x : Frac)
  deriving DecidableEq, Repr

/-- Value of a decimal digit character. -/
def digitVal (c : Char) : Option Nat :=
  if '0' ≤ c ∧ c ≤ '9' then some (c.toNat - '0'.toNat) else none

/-- Accumulate decimal digits; `none` on a non-digit or on no digits at all. -/
def parseDigits : List Char → Nat → Option Nat
  | [], acc => some acc
  | c :: cs, acc =>
    match digitVal c with
    | some d => parseDigits cs (acc * 10 + d)
    | none => none

/-- JavaScript `BigInt(string)` on a decimal integer literal; `none` models the
thrown `SyntaxError`.  The empty string evaluates to `0`, matching JavaScript;
whitespace trimming, radix prefixes and exponent forms are outside this model. -/
def jsBigInt (s : String) : Option Int :=
  match s.data with
  | [] => some 0
  | '-' :: rest =>
    if rest.isEmpty then none else (parseDigits rest 0).map (fun n => -(n : Int))
  | '+' :: rest =>
    if rest.isEmpty then none else (parseDigits rest 0).map (fun n => (n : Int))
  | l => (parseDigits l 0).map (fun n => (n : Int))

/-- The four networks of `src/utils/constants.ts`. -/
inductive NetworkName where
  | polkadot | kusama | westend | rococo
  deriving DecidableEq, Repr

/-- The `DECIMALS` table of `src/utils/constants.ts`. -/
def DECIMALS : NetworkName → Nat
  | .polkadot => 10
  | .kusama => 12
  | .westend => 12
  | .rococo => 12

/-- `this.api.registry.chainDecimals[0] || 10`: JavaScript `||` falls back both
when the array is empty (`undefined`) and when the first entry is the falsy
number `0`. -/
def chainDecimalsOrTen (chainDecimals : List Nat) : Nat :=
  match chainDecimals.head? with
  | some n => if n = 0 then 10 else n
  | none => 10

/-- JavaScript `10 ** decimals`: a binary64 value. -/
def jsPow10 (d : Nat) : Frac := fl64 ⟨(10 : Int) ^ d, 1⟩

/-- The numeric amount path `BigInt(Math.floor(amount * (10 ** decimals)))`:
one binary64 multiplication, then `Math.floor`, then an exact `BigInt`
conversion. -/
def numericToChain (x : Frac) (d : Nat) : Int := (fl64 (x.mul (jsPow10 d))).floor

/-- `floor(x * 10 ^ decimals)` computed with arbitrary-precision integer
arithmetic — the conversion the specification states for numeric input. -/
def exactToChain (x : Frac) (d : Nat) : Int := Int.fdiv (x.num * 10 ^ d) (x.den : Int)

/-- Amount conversion of `StakingManager.bond` / `bondExtra` / `unbond` and
`GovernanceManager.voteOnReferendum` / `submitTreasuryProposal`:
`typeof amount === 'string' ? BigInt(amount) : BigInt(Math.floor(amount * (10 ** decimals)))`.
`none` models a thrown `SyntaxError`. -/
def stakingAmountToChain (a : Amt) (decimals : Nat) : Option Int :=
  match a with
  | .str s => jsBigInt s
  | .num x => some (numericToChain x decimals)

/-- Amount conversion of `ChainManager.transfer`:
`typeof amount === 'string' ? BigInt(amount) * BigInt(10 ** decimals) : BigInt(Math.floor(amount * (10 ** decimals)))`. -/
def transferAmountToChain (a : Amt) (decimals : Nat) : Option Int :=
  match a with
  | .str s => (jsBigInt s).map (fun n => n * (jsPow10 decimals).floor)
  | .num x => some (numericToChain x decimals)

/-- The `staking.bond` extrinsic as built by the source:
`this.api.tx.staking.bond(controllerAccount, bondAmount, 'Staked')`. -/
structure BondCall where
  controller : String
  amount : Int
  payee : String
  deriving DecidableEq, Repr

/-- `StakingManager.bond` up to the point where the call is handed to
`signAndSend`: amount conversion (which throws on an unparsable string) and
call construction.  There is no validation step in between. -/
def bondBuildTx (controller : String) (a : Amt) (decimals : Nat) : Option BondCall :=
  (stakingAmountToChain a decimals).map (fun n => ⟨controller, n, "Staked"⟩)

/-! ### Transaction lifecycle

Embeds the `signAndSend` status callbacks of `ChainManager.transfer`
(src/chain.ts) and `StakingManager.bond` (src/staking.ts).  A JavaScript
promise settles at most once; the run function below keeps the first
settlement.  An uncaught exception inside a status callback (`.catch(reject)`
only guards the `signAndSend` promise itself, not the callback body) is
modelled by `Except.error`. -/

/-- `ExtrinsicStatus` as inspected by the source.  `pending` covers the
non-terminal states (`Future`, `Ready`, `Broadcast`, `Retracted`, ...); the
Substrate status type has no `Error` variant, so the source's `status.isError`
reads an absent property and is always falsy. -/
inductive TxStatus where
  | pending
  | inBlock (blockHash : Nat)
  | finalized (blockHash : Nat)
  | dropped
  | invalid
  deriving DecidableEq, Repr

def TxStatus.isInBlock : TxStatus → Bool
  | .inBlock _ => true
  | _ => false

def TxStatus.isDropped : TxStatus → Bool
  | .dropped => true
  | _ => false

def TxStatus.isInvalid : TxStatus → Bool
  | .invalid => true
  | _ => false

/-- `status.isError` — the property does not exist on `ExtrinsicStatus`, so it
is `undefined`, hence falsy. -/
def TxStatus.isError : TxStatus → Bool
  | _ => false

/-- `status.type`, used in rejection messages. -/
def TxStatus.typeName : TxStatus → String
  | .pending => "Ready"
  | .inBlock _ => "InBlock"
  | .finalized _ => "Finalized"
  | .dropped => "Dropped"
  | .invalid => "Invalid"

/-- A dispatch error delivered alongside a status update:
`dispatchError.isModule` distinguishes module errors (carrying pallet and
error indices) from the rest. -/
inductive DispatchErr where
  | module (moduleIndex errorIndex : Nat)
  | other
  deriving DecidableEq, Repr

/-- One event record, as surfaced by `events.map(...)` in the source. -/
structure EventRecord where
  phase : String
  event : String
  deriving DecidableEq, Repr

/-- One raw `signAndSend` callback payload: `{ status, events, dispatchError }`. -/
structure TxUpdate where
  status : TxStatus
  events : List EventRecord
  dispatchError : Option DispatchErr
  deriving DecidableEq, Repr

/-- A resolved module-error description from the metadata registry. -/
structure MetaErr where
  sectionName : String
  name : String
  docs : String
  deriving DecidableEq, Repr

/-- The metadata registry, an association of (module index, error index) to
error metadata. -/
abbrev Registry := List ((Nat × Nat) × MetaErr)

/-- `api.registry.findMetaError(dispatchError.asModule)`.  Its contract is the
spec's Metadata Registry collaborator: it fails (throws) when the descriptor
is not resolvable; `none` models the throw. -/
def findMetaError (reg : Registry) (key : Nat × Nat) : Option MetaErr :=
  (reg.find? (fun e => e.1 = key)).map (fun e => e.2)

/-- The settlement of a tracked submission: `resolved` is a call to the
promise's `resolve`, `rejected` a call to `reject(new Error(msg))`. -/
inductive Settle (α : Type) where
  | resolved (a : α)
  | rejected (msg : String)
  deriving DecidableEq, Repr

/-- The `TransferResult` the transfer promise resolves with. -/
structure TransferOutcome where
  hash : String
  blockHash : Nat
  success : Bool
  events : List EventRecord
  deriving DecidableEq, Repr

/-- Block hash carried by an `InBlock` status (`status.asInBlock`). -/
def TxStatus.asInBlock : TxStatus → Nat
  | .inBlock h => h
  | .finalized h => h
  | _ => 0

/-- One invocation of the `ChainManager.transfer` status callback
(src/chain.ts lines 131-158).  `Except.error ()` is the uncaught throw of
`findMetaError` on an unresolvable module error; `Option.none` means the
callback returned without settling. -/
def transferCallbackStep (reg : Registry) (txHash : String) (u : TxUpdate) :
    Except Unit (Option (Settle TransferOutcome)) :=
  if u.status.isInBlock then
    match u.dispatchError with
    | some de =>
      -- let errorMessage = 'Transaction failed'; if isModule, decode
      match de with
      | .module mi ei =>
        match findMetaError reg (mi, ei) with
        | some m =>
          .ok (some (.rejected (m.sectionName ++ "." ++ m.name ++ ": " ++ m.docs)))
        | none => .error ()
      | .other => .ok (some (.rejected "Transaction failed"))
    | none =>
      .ok (some (.resolved ⟨txHash, u.status.asInBlock, true, u.events⟩))
  else if u.status.isError || u.status.isDropped || u.status.isInvalid then
    .ok (some (.rejected ("Transaction failed with status: " ++ u.status.typeName)))
  else
    .ok none

/-- One invocation of the `StakingManager.bond` status callback
(src/staking.ts lines 71-89).  A successful inclusion resolves with the
extrinsic hash only. -/
def bondCallbackStep (reg : Registry) (txHash : String) (u : TxUpdate) :
    Except Unit (Option (Settle String)) :=
  if u.status.isInBlock then
    match u.dispatchError with
    | some de =>
      match de with
      | .module mi ei =>
        match findMetaError reg (mi, ei) with
        | some m =>
          .ok (some (.rejected (m.sectionName ++ "." ++ m.name ++ ": " ++ m.docs)))
        | none => .error ()
      | .other => .ok (some (.rejected "Bonding failed"))
    | none => .ok (some (.resolved txHash))
  else if u.status.isError || u.status.isDropped || u.status.isInvalid then
    .ok (some (.rejected ("Bonding failed with status: " ++ u.status.typeName)))
  else
    .ok none

/-- Feed a stream of status updates through a callback: the first settlement
wins (later `resolve`/`reject` calls on a settled promise are no-ops); an
uncaught callback exception ends the run unsettled. -/
def runTracker {α : Type} (step : TxUpdate → Except Unit (Option (Settle α))) :
    List TxUpdate → Except Unit (Option (Settle α))
  | [] => .ok none
  | u :: rest =>
    match step u with
    | .error e => .error e
    | .ok (some s) => .ok (some s)
    | .ok none => runTracker step rest

/-! ### Governance: dual-schema proposal listing and referendum details

Embeds `GovernanceManager.getActiveProposals`, `parseOpenGovProposals`,
`parseLegacyProposals` and `getReferendumDetails` (src/governance.ts).
Chain storage arrives as already-typed raw values; a raw entry records which
decoding steps would throw (`key.args[0].toNumber()` on a malformed key,
`value.unwrap()` on a `None` storage value). -/

/-- Ongoing OpenGov referendum data, with the optional sub-fields the source
reads through `?.`. -/
structure OngoingRef where
  track : Option Nat
  who : Option String
  amount : Option Int
  decidingSince : Option Nat
  deriving DecidableEq, Repr

/-- `ReferendumInfo` of the `referenda` (OpenGov) pallet. -/
inductive RefInfo where
  | ongoing (o : OngoingRef)
  | finished
  deriving DecidableEq, Repr

/-- Ongoing legacy `democracy` referendum data (`ongoing.end?.toNumber()`). -/
structure LegacyOngoing where
  endBlock : Option Nat
  deriving DecidableEq, Repr

/-- `ReferendumInfo` of the legacy `democracy` pallet. -/
inductive LegacyRefInfo where
  | ongoing (o : LegacyOngoing)
  | finished
  deriving DecidableEq, Repr

/-- One raw entry of a storage-map enumeration.  `keyIndex = none` models a key
whose `args[0].toNumber()` throws; `value = none` models a storage `Option`
that is `None`, so `unwrap()` throws. -/
structure RawEntry (V : Type) where
  keyIndex : Option Nat
  value : Option V
  deriving DecidableEq, Repr

/-- Governance-relevant chain state.  `none` for a storage map means the
pallet / storage item is structurally absent on this chain
(`api.query.referenda?.referendumInfoFor` is `undefined`); `some entries`
means it exists, possibly with no entries. -/
structure GovChain where
  referenda : Option (List (RawEntry RefInfo))
  democracy : Option (List (RawEntry LegacyRefInfo))
  deriving DecidableEq, Repr

/-- `GovernanceProposal` (src/types.ts), the normalized view.  `depositAmount`
stands for the `deposit` string of the source (an exact integer rendered as a
string); `hash` for the hex strings produced by `toHex()`. -/
structure Proposal where
  index : Nat
  hash : String
  author : String
  depositAmount : Int
  status : String
  title : String
  description : String
  votingEnd : Option Nat
  deriving DecidableEq, Repr

/-- Stand-in for `key.toHex()` — an injective rendering of the storage key. -/
def keyHex (i : Nat) : String := "key:" ++ toString i

/-- Stand-in for `(info).toHex()` on a queried referendum value. -/
def infoHex (i : Nat) : String := "info:" ++ toString i

/-- The proposal built from an ongoing OpenGov entry
(`parseOpenGovProposals`, src/governance.ts lines 47-56).
`ongoing.track?.toNumber() || 0` and the `?.`-guarded submission fields
default exactly as in the source. -/
def mkOpenGovProposal (i : Nat) (h : String) (o : OngoingRef) : Proposal :=
  ⟨i, h, o.who.getD "Unknown", o.amount.getD 0, "Active",
    "Track " ++ toString (o.track.getD 0) ++ " - Referendum " ++ toString i,
    "OpenGov Referendum", o.decidingSince⟩

/-- The proposal built from an ongoing legacy entry
(`parseLegacyProposals`, src/governance.ts lines 80-89). -/
def mkLegacyProposal (i : Nat) (h : String) (o : LegacyOngoing) : Proposal :=
  ⟨i, h, "Democracy", 0, "Active",
    "Democracy Referendum " ++ toString i,
    "Legacy Democracy Referendum", o.endBlock⟩

/-- The `try` body of one OpenGov entry decode: index, unwrap, ongoing check.
`Except.error ()` is a throw (caught by the per-entry `catch`). -/
def openGovEntryRaw (e : RawEntry RefInfo) : Except Unit (Option Proposal) :=
  match e.keyIndex with
  | none => .error ()
  | some i =>
    match e.value with
    | none => .error ()
    | some info =>
      match info with
      | .ongoing o => .ok (some (mkOpenGovProposal i (keyHex i) o))
      | .finished => .ok none

/-- One OpenGov entry after the per-entry `try/catch`: a decode throw is
logged and mapped to `null`. -/
def openGovEntry (e : RawEntry RefInfo) : Option Proposal :=
  match openGovEntryRaw e with
  | .ok r => r
  | .error _ => none

/-- `parseOpenGovProposals`: map each entry independently, then
`.filter(proposal => proposal !== null)`. -/
def parseOpenGovProposals (entries : List (RawEntry RefInfo)) : List Proposal :=
  (entries.map openGovEntry).filterMap id

/-- The `try` body of one legacy entry decode. -/
def legacyEntryRaw (e : RawEntry LegacyRefInfo) : Except Unit (Option Proposal) :=
  match e.keyIndex with
  | none => .error ()
  | some i =>
    match e.value with
    | none => .error ()
    | some info =>
      match info with
      | .ongoing o => .ok (some (mkLegacyProposal i (keyHex i) o))
      | .finished => .ok none

/-- One legacy entry after the per-entry `try/catch`. -/
def legacyEntry (e : RawEntry LegacyRefInfo) : Option Proposal :=
  match legacyEntryRaw e with
  | .ok r => r
  | .error _ => none

/-- `parseLegacyProposals`. -/
def parseLegacyProposals (entries : List (RawEntry LegacyRefInfo)) : List Proposal :=
  (entries.map legacyEntry).filterMap id

/-- `GovernanceManager.getActiveProposals` (src/governance.ts lines 14-30):
if `api.query.referenda?.referendumInfoFor?.entries()` exists (even with zero
entries) parse it as OpenGov, otherwise fall back to
`api.query.democracy?.referendumInfoOf?.entries() || []`. -/
def getActiveProposals (c : GovChain) : List Proposal :=
  match c.referenda with
  | some entries => parseOpenGovProposals entries
  | none => parseLegacyProposals (c.democracy.getD [])

/-- `api.query.referenda.referendumInfoFor(i)`: the storage value at key `i`,
`none` when there is no such key or the stored `Option` is `None`. -/
def queryRefInfo (m : List (RawEntry RefInfo)) (i : Nat) : Option RefInfo :=
  match m.find? (fun e => e.keyIndex = some i) with
  | some e => e.value
  | none => none

/-- `api.query.democracy.referendumInfoOf(i)`. -/
def queryLegacyInfo (m : List (RawEntry LegacyRefInfo)) (i : Nat) : Option LegacyRefInfo :=
  match m.find? (fun e => e.keyIndex = some i) with
  | some e => e.value
  | none => none

/-- `GovernanceManager.getReferendumDetails` (src/governance.ts lines
183-240).  The OpenGov block returns only when its storage exists, holds the
index, and the entry is ongoing; in every other case — including when the
OpenGov storage exists but has no ongoing entry at the index — control falls
through to the legacy block. -/
def getReferendumDetails (c : GovChain) (i : Nat) : Option Proposal :=
  let fromCurrent : Option Proposal :=
    match c.referenda with
    | some m =>
      match queryRefInfo m i with
      | some info =>
        match info with
        | .ongoing o => some (mkOpenGovProposal i (infoHex i) o)
        | .finished => none
      | none => none
    | none => none
  match fromCurrent with
  | some p => some p
  | none =>
    match c.democracy with
    | some m =>
      match queryLegacyInfo m i with
      | some info =>
        match info with
        | .ongoing o => some (mkLegacyProposal i (infoHex i) o)
        | .finished => none
      | none => none
    | none => none

/-! ### Staking view

Embeds `StakingManager.getStakingInfo` (src/staking.ts lines 14-56). -/

/-- One unlocking chunk of the staking ledger. -/
structure Chunk where
  value : Nat
  era : Nat
  deriving DecidableEq, Repr

/-- The raw staking ledger (`api.query.staking.ledger(address)` unwrapped). -/
structure RawLedger where
  active : Nat
  unlocking : List Chunk
  deriving DecidableEq, Repr

/-- The `StakingInfo` view returned to the caller. -/
structure StakingInfo where
  bonded : Nat
  unbonding : List Chunk
  redeemable : Nat
  nominations : Option (List String)
  deriving DecidableEq, Repr

/-- `redeemable`: filter the unbonding chunks by `era <= currentEra`, then
reduce with exact big-integer addition starting from `'0'`. -/
def redeemableOf (unbonding : List Chunk) (currentEra : Nat) : Nat :=
  (unbonding.filter (fun c => c.era ≤ currentEra)).foldl (fun total c => total + c.value) 0

/-- `StakingManager.getStakingInfo` as a function of the three chain reads:
the ledger `Option`, the nominators `Option` (queried independently of the
ledger) and the current era. -/
def getStakingInfo (ledger : Option RawLedger) (noms : Option (List String))
    (currentEra : Nat) : StakingInfo :=
  match ledger with
  | some l => ⟨l.active, l.unlocking, redeemableOf l.unlocking currentEra, noms⟩
  | none => ⟨0, [], 0, noms⟩

/-! ### Voting info

Embeds `GovernanceManager.getVotingInfo` (src/governance.ts lines 159-178). -/

/-- The chain capabilities `getVotingInfo` probes.  A present
`convictionVotingFor` is the query function
`api.query.convictionVoting.votingFor(account, class)` (result rendered by
`toHuman()`, modelled as a string); `democracyVotingOf` the legacy
`api.query.democracy.votingOf(account)`. -/
structure VoteChain where
  convictionVotingFor : Option (String → Nat → String)
  democracyVotingOf : Option (String → String)

/-- `getVotingInfo`: OpenGov first — querying `votingFor(account, 0)` (track
0, Root) regardless of the `referendumIndex` argument — then legacy democracy,
else `null`. -/
def getVotingInfo (c : VoteChain) (account : String) (referendumIndex : Nat) :
    Option String :=
  match c.convictionVotingFor with
  | some f => some (f account 0)
  | none =>
    match c.democracyVotingOf with
    | some g => some (g account)
    | none => none

/-- The storage key `getVotingInfo` queries on the conviction-voting path. -/
def votingQueryKey (c : VoteChain) (account : String) (referendumIndex : Nat) :
    Option (String × Nat) :=
  match c.convictionVotingFor with
  | some _ => some (account, 0)
  | none => none

/-! ### Helper lemmas -/

lemma fdiv_nonpos_of_nonpos {a b : Int} (ha : a ≤ 0) (hb : 0 ≤ b) :
    a.fdiv b ≤ 0 := by
  rw [Int.fdiv_eq_ediv _ hb]
  rcases lt_or_eq_of_le hb with h | h
  · have h1 := Int.ediv_le_ediv h ha
    simpa using h1
  · simp [← h]

/-- The code's arbitrary-precision floor of `x * 10 ^ d` agrees with the
rational-number floor. -/
lemma exactToChain_eq_floor (x : Frac) (d : Nat) :
    exactToChain x d = ⌊x.toRat * (10 : ℚ) ^ d⌋ := by
  unfold exactToChain Frac.toRat
  rw [Int.fdiv_eq_ediv _ (Int.natCast_nonneg x.den)]
  rw [show (x.num : ℚ) / (x.den : ℚ) * (10 : ℚ) ^ d
      = ((x.num * 10 ^ d : Int) : ℚ) / ((x.den : Nat) : ℚ) by push_cast; ring]
  rw [Rat.floor_intCast_div_natCast]

/-- `10 ** d` is exactly representable in binary64 for each `d` up to 22, so
`BigInt(10 ** d)` is exactly `10 ^ d` there. -/
lemma jsPow10_floor_eq : ∀ d < 23, (jsPow10 d).floor = 10 ^ d := by decide

lemma rnEven_fdiv_or_succ (a : Frac) :
    rnEven a = Int.fdiv a.num (a.den : Int) ∨
      rnEven a = Int.fdiv a.num (a.den : Int) + 1 := by
  unfold rnEven
  dsimp only
  split
  · exact Or.inl rfl
  · split
    · exact Or.inr rfl
    · split
      · exact Or.inl rfl
      · exact Or.inr rfl

lemma rnEven_nonneg (a : Frac) (h : 0 ≤ a.num) : 0 ≤ rnEven a := by
  have hf : 0 ≤ Int.fdiv a.num (a.den : Int) :=
    Int.fdiv_nonneg h (Int.natCast_nonneg a.den)
  rcases rnEven_fdiv_or_succ a with h' | h' <;> omega

lemma divPow2_num_nonneg (a : Frac) (e : Int) (h : 0 ≤ a.num) :
    0 ≤ (a.divPow2 e).num := by
  unfold Frac.divPow2
  split
  · exact h
  · exact mul_nonneg h (by positivity)

lemma ofIntPow2_num_nonneg (m e : Int) (h : 0 ≤ m) :
    0 ≤ (Frac.ofIntPow2 m e).num := by
  unfold Frac.ofIntPow2
  split
  · exact mul_nonneg h (by positivity)
  · exact h

lemma ofIntPow2_num_nonpos (m e : Int) (h : m ≤ 0) :
    (Frac.ofIntPow2 m e).num ≤ 0 := by
  unfold Frac.ofIntPow2
  split
  · exact mul_nonpos_iff.mpr (Or.inr ⟨h, by positivity⟩)
  · exact h

lemma fl64_num_nonneg (q : Frac) (h : 0 ≤ q.num) : 0 ≤ (fl64 q).num := by
  unfold fl64
  split
  · simp
  · dsimp only
    rename_i hne
    have hpos : 0 < q.num := lt_of_le_of_ne h (Ne.symm hne)
    rw [if_pos hpos]
    apply ofIntPow2_num_nonneg
    have hr := rnEven_nonneg ((Frac.mk |q.num| q.den).divPow2 (fracLog2 ⟨|q.num|, q.den⟩ - 52))
      (divPow2_num_nonneg _ _ (abs_nonneg _))
    omega

lemma fl64_num_nonpos (q : Frac) (h : q.num ≤ 0) : (fl64 q).num ≤ 0 := by
  unfold fl64
  split
  · simp
  · dsimp only
    rename_i hne
    have hneg : ¬ 0 < q.num := by omega
    rw [if_neg hneg]
    apply ofIntPow2_num_nonpos
    have hr := rnEven_nonneg ((Frac.mk |q.num| q.den).divPow2 (fracLog2 ⟨|q.num|, q.den⟩ - 52))
      (divPow2_num_nonneg _ _ (abs_nonneg _))
    omega

/-- A non-positive numeric amount converts to a non-positive chain amount —
the conversion never rejects it. -/
lemma numericToChain_nonpos (x : Frac) (d : Nat) (hx : x.num ≤ 0) :
    numericToChain x d ≤ 0 := by
  unfold numericToChain Frac.floor
  have hp : 0 ≤ (jsPow10 d).num := fl64_num_nonneg _ (by positivity)
  have hm : (x.mul (jsPow10 d)).num ≤ 0 :=
    mul_nonpos_iff.mpr (Or.inr ⟨hx, hp⟩)
  exact fdiv_nonpos_of_nonpos (fl64_num_nonpos _ hm) (Int.natCast_nonneg _)

/-! ### Claim theorems -/

/-- C1: the claim states that the numeric-input path returns exactly
`floor(x * 10^decimals)` with no fixed-width floating-point artifact.  The
source computes `BigInt(Math.floor(amount * (10 ** decimals)))`, a single
binary64 multiplication.  At the binary64 input nearest `0.1` with
`decimals = 18` the code path (`numericToChain`) yields
`100000000000000000`, while the exact conversion (`exactToChain`, equal to
the rational floor) yields `100000000000000005`: the rounding artifact the
claim excludes does appear. -/
theorem C1_numeric_path_float_artifact :
    isFloat64 tenthF ∧
    stakingAmountToChain (.num tenthF) 18 = some (numericToChain tenthF 18) ∧
    transferAmountToChain (.num tenthF) 18 = some (numericToChain tenthF 18) ∧
    numericToChain tenthF 18 = 100000000000000000 ∧
    exactToChain tenthF 18 = 100000000000000005 ∧
    numericToChain tenthF 18 ≠ exactToChain tenthF 18 ∧
    ⌊tenthF.toRat * (10 : ℚ) ^ 18⌋ = 100000000000000005 := by
  refine ⟨by decide, rfl, rfl, by decide, by decide, by decide, ?_⟩
  rw [← exactToChain_eq_floor]
  decide

/-- C2 counterexample: the claim states that every amount-accepting operation
parses a string amount exactly with no `10^decimals` scaling.
`ChainManager.transfer` computes `BigInt(amount) * BigInt(10 ** decimals)`:
on the polkadot network (10 decimals) the string `"1"` is submitted as
`10000000000` base units, not `1`. -/
theorem C2_transfer_scales_string_counterexample :
    jsBigInt "1" = some 1 ∧
    transferAmountToChain (.str "1") (DECIMALS .polkadot) = some 10000000000 ∧
    transferAmountToChain (.str "1") (DECIMALS .polkadot) ≠ some 1 := by
  exact ⟨by decide, by decide, by decide⟩

/-- C2 (amended): string amounts are parsed exactly and unscaled by `bond`,
`bondExtra`, `unbond`, `voteOnReferendum` and `submitTreasuryProposal`
(`stakingAmountToChain`), while `transfer` multiplies the parsed integer by
`10 ^ decimals` (`transferAmountToChain`). -/
theorem C2_string_amount_paths (s : String) (d : Nat) (hd : d ≤ 22) :
    stakingAmountToChain (.str s) d = jsBigInt s ∧
    transferAmountToChain (.str s) d = (jsBigInt s).map (fun n => n * 10 ^ d) := by
  refine ⟨rfl, ?_⟩
  unfold transferAmountToChain
  rw [jsPow10_floor_eq d (by omega)]

/-- C2 witness: the amended statement at the concrete string
`"123456789012"` with 10 decimals. -/
theorem C2_string_amount_paths_witness :
    stakingAmountToChain (.str "123456789012") 10 = jsBigInt "123456789012" ∧
    transferAmountToChain (.str "123456789012") 10
      = (jsBigInt "123456789012").map (fun n => n * 10 ^ 10) :=
  C2_string_amount_paths "123456789012" 10 (by omega)

/-- C3 counterexample: the claim states that a negative amount raises an
`InvalidAmount` error synchronously and is never signed or sent.  The source
contains no negativity check: the numeric amount `-1` converts to
`-10000000000` and the `staking.bond` call is built and handed to
`signAndSend` with that negative amount. -/
theorem C3_negative_amount_not_rejected_counterexample :
    stakingAmountToChain (.num ⟨-1, 1⟩) 10 = some (-10000000000) ∧
    transferAmountToChain (.num ⟨-1, 1⟩) 10 = some (-10000000000) ∧
    bondBuildTx "ctrl" (.num ⟨-1, 1⟩) 10 = some ⟨"ctrl", -10000000000, "Staked"⟩ := by
  exact ⟨by decide, by decide, by decide⟩

/-- C3 (amended): negative numeric amounts are not validated anywhere in the
SDK — the conversion always succeeds, and the signed call is built with the
converted, non-positive amount. -/
theorem C3_negative_amount_flows_to_call (c : String) (x : Frac) (d : Nat)
    (hx : x.num < 0) :
    bondBuildTx c (.num x) d = some ⟨c, numericToChain x d, "Staked"⟩ ∧
    numericToChain x d ≤ 0 :=
  ⟨rfl, numericToChain_nonpos x d (le_of_lt hx)⟩

/-- C3 witness: the amended statement at the concrete numeric amount `-1`
with 10 decimals. -/
theorem C3_negative_amount_flows_to_call_witness :
    bondBuildTx "c" (.num ⟨-1, 1⟩) 10
      = some ⟨"c", numericToChain ⟨-1, 1⟩ 10, "Staked"⟩ ∧
    numericToChain ⟨-1, 1⟩ 10 ≤ 0 :=
  C3_negative_amount_flows_to_call "c" ⟨-1, 1⟩ 10 (by decide)

/-- Updates that settle nothing are skipped by the tracker. -/
lemma runTracker_skip {α : Type} (step : TxUpdate → Except Unit (Option (Settle α)))
    (pre l : List TxUpdate) (hpre : ∀ u ∈ pre, step u = .ok none) :
    runTracker step (pre ++ l) = runTracker step l := by
  induction pre with
  | nil => rfl
  | cons u us ih =>
    simp only [List.cons_append, runTracker]
    rw [hpre u (List.mem_cons_self u us)]
    exact ih (fun v hv => hpre v (List.mem_cons_of_mem u hv))

lemma transferCallbackStep_inBlock_module (reg : Registry) (h : String)
    (bh : Nat) (evs : List EventRecord) (mi ei : Nat) (m : MetaErr)
    (hm : findMetaError reg (mi, ei) = some m) :
    transferCallbackStep reg h ⟨.inBlock bh, evs, some (.module mi ei)⟩
      = .ok (some (.rejected (m.sectionName ++ "." ++ m.name ++ ": " ++ m.docs))) := by
  unfold transferCallbackStep
  simp [TxStatus.isInBlock, hm]

/-- C4 counterexample: the claim states every transaction reaching `InBlock`
resolves with the extrinsic hash, block hash and emitted events.  The bond
tracker resolves with the extrinsic hash only: two streams that differ in
block hash and events produce identical bond resolutions (so the resolution
cannot carry either), while the transfer tracker distinguishes them. -/
theorem C4_bond_resolution_lacks_block_data_counterexample :
    runTracker (bondCallbackStep [] "0xabc")
        [⟨.inBlock 1, [⟨"applyExtrinsic", "balances.Transfer"⟩], none⟩]
      = .ok (some (.resolved "0xabc")) ∧
    runTracker (bondCallbackStep [] "0xabc") [⟨.inBlock 2, [], none⟩]
      = .ok (some (.resolved "0xabc")) ∧
    (1 : Nat) ≠ 2 ∧
    runTracker (transferCallbackStep [] "0xabc")
        [⟨.inBlock 1, [⟨"applyExtrinsic", "balances.Transfer"⟩], none⟩]
      ≠ runTracker (transferCallbackStep [] "0xabc") [⟨.inBlock 2, [], none⟩] := by
  exact ⟨by decide, by decide, by decide, by decide⟩

/-- C4 (amended): every tracked submission resolves at the first `InBlock`
update, never at `Finalized`: a module error resolves as a failure with the
decoded reason; a clean inclusion resolves the transfer with extrinsic hash,
block hash and events, and the bond with the extrinsic hash only; a
`Finalized` update settles nothing. -/
theorem C4_resolution_at_inBlock (reg : Registry) (h : String)
    (pre post : List TxUpdate) (bh : Nat) (evs : List EventRecord)
    (hpreT : ∀ u ∈ pre, transferCallbackStep reg h u = .ok none)
    (hpreB : ∀ u ∈ pre, bondCallbackStep reg h u = .ok none) :
    runTracker (transferCallbackStep reg h) (pre ++ ⟨.inBlock bh, evs, none⟩ :: post)
      = .ok (some (.resolved ⟨h, bh, true, evs⟩)) ∧
    runTracker (bondCallbackStep reg h) (pre ++ ⟨.inBlock bh, evs, none⟩ :: post)
      = .ok (some (.resolved h)) ∧
    (∀ mi ei m, findMetaError reg (mi, ei) = some m →
      runTracker (transferCallbackStep reg h)
          (pre ++ ⟨.inBlock bh, evs, some (.module mi ei)⟩ :: post)
        = .ok (some (.rejected (m.sectionName ++ "." ++ m.name ++ ": " ++ m.docs)))) ∧
    (∀ evs' de, transferCallbackStep reg h ⟨.finalized bh, evs', de⟩ = .ok none) ∧
    (∀ evs' de, bondCallbackStep reg h ⟨.finalized bh, evs', de⟩ = .ok none) := by
  refine ⟨?_, ?_, ?_, ?_, ?_⟩
  · rw [runTracker_skip _ _ _ hpreT]; rfl
  · rw [runTracker_skip _ _ _ hpreB]; rfl
  · intro mi ei m hm
    rw [runTracker_skip _ _ _ hpreT]
    simp only [runTracker, transferCallbackStep_inBlock_module reg h bh evs mi ei m hm]
  · intro evs' de; rfl
  · intro evs' de; rfl

/-- C4 witness: the amended statement with an empty prefix, a concrete block
hash and one event, followed by a `Finalized` update that is ignored. -/
theorem C4_resolution_at_inBlock_witness :
    runTracker (transferCallbackStep [] "0xaa")
        ([] ++ ⟨.inBlock 7, [⟨"applyExtrinsic", "ok"⟩], none⟩
          :: [⟨.finalized 7, [], none⟩])
      = .ok (some (.resolved ⟨"0xaa", 7, true, [⟨"applyExtrinsic", "ok"⟩]⟩)) ∧
    runTracker (bondCallbackStep [] "0xaa")
        ([] ++ ⟨.inBlock 7, [⟨"applyExtrinsic", "ok"⟩], none⟩
          :: [⟨.finalized 7, [], none⟩])
      = .ok (some (.resolved "0xaa")) ∧
    (∀ mi ei m, findMetaError [] (mi, ei) = some m →
      runTracker (transferCallbackStep [] "0xaa")
          ([] ++ ⟨.inBlock 7, [⟨"applyExtrinsic", "ok"⟩], some (.module mi ei)⟩
            :: [⟨.finalized 7, [], none⟩])
        = .ok (some (.rejected (m.sectionName ++ "." ++ m.name ++ ": " ++ m.docs)))) ∧
    (∀ evs' de, transferCallbackStep [] "0xaa" ⟨.finalized 7, evs', de⟩ = .ok none) ∧
    (∀ evs' de, bondCallbackStep [] "0xaa" ⟨.finalized 7, evs', de⟩ = .ok none) :=
  C4_resolution_at_inBlock [] "0xaa" [] [⟨.finalized 7, [], none⟩] 7
    [⟨"applyExtrinsic", "ok"⟩] (fun u hu => by cases hu) (fun u hu => by cases hu)

/-- The registry that resolves module error `(5, 2)`. -/
def reg52 : Registry := [((5, 2), ⟨"pallet5", "error2", "docs"⟩)]

/-- C5: with a registry that resolves module error `(5, 2)` the failure is
reported as `"pallet5.error2: docs"` (confirming the resolvable half of the
claim).  When the registry cannot resolve the descriptor, `findMetaError`
throws inside the status callback and nothing catches it: the tracked
operation ends in the thrown state, not with the generic failure message the
claim requires — for either the transfer or the bond generic message. -/
theorem C5_unresolvable_module_error_crashes :
    runTracker (transferCallbackStep reg52 "0xh") [⟨.inBlock 9, [], some (.module 5 2)⟩]
      = .ok (some (.rejected "pallet5.error2: docs")) ∧
    runTracker (transferCallbackStep [] "0xh") [⟨.inBlock 9, [], some (.module 5 2)⟩]
      = .error () ∧
    runTracker (transferCallbackStep [] "0xh") [⟨.inBlock 9, [], some (.module 5 2)⟩]
      ≠ .ok (some (.rejected "Transaction failed")) ∧
    runTracker (bondCallbackStep [] "0xh") [⟨.inBlock 9, [], some (.module 5 2)⟩]
      = .error () ∧
    runTracker (bondCallbackStep [] "0xh") [⟨.inBlock 9, [], some (.module 5 2)⟩]
      ≠ .ok (some (.rejected "Bonding failed")) := by
  exact ⟨by decide, by decide, by decide, by decide, by decide⟩

/-- The ongoing OpenGov entry at index `i`, if the current schema is present
and holds one. -/
def currentOngoingAt (c : GovChain) (i : Nat) : Option OngoingRef :=
  match c.referenda with
  | some m =>
    match queryRefInfo m i with
    | some (.ongoing o) => some o
    | _ => none
  | none => none

/-- The ongoing legacy entry at index `i`, if the legacy schema is present and
holds one. -/
def legacyOngoingAt (c : GovChain) (i : Nat) : Option LegacyOngoing :=
  match c.democracy with
  | some m =>
    match queryLegacyInfo m i with
    | some (.ongoing o) => some o
    | _ => none
  | none => none

/-- `getReferendumDetails` characterized: the ongoing current entry wins;
otherwise — including when the current schema is present but has no ongoing
entry at the index — the ongoing legacy entry is returned; otherwise `none`. -/
lemma getReferendumDetails_eq (c : GovChain) (i : Nat) :
    getReferendumDetails c i =
      match currentOngoingAt c i with
      | some o => some (mkOpenGovProposal i (infoHex i) o)
      | none =>
        match legacyOngoingAt c i with
        | some o => some (mkLegacyProposal i (infoHex i) o)
        | none => none := by
  unfold getReferendumDetails currentOngoingAt legacyOngoingAt
  obtain ⟨r, d⟩ := c
  cases r with
  | none =>
    cases d with
    | none => rfl
    | some m =>
      cases hq : queryLegacyInfo m i with
      | none => simp only [hq]
      | some info => cases info <;> simp only [hq]
  | some m =>
    cases hq : queryRefInfo m i with
    | none =>
      cases d with
      | none => simp only [hq]
      | some m2 =>
        cases hq2 : queryLegacyInfo m2 i with
        | none => simp only [hq, hq2]
        | some info2 => cases info2 <;> simp only [hq, hq2]
    | some info =>
      cases info with
      | ongoing o => simp only [hq]
      | finished =>
        cases d with
        | none => simp only [hq]
        | some m2 =>
          cases hq2 : queryLegacyInfo m2 i with
          | none => simp only [hq, hq2]
          | some info2 => cases info2 <;> simp only [hq, hq2]

/-- A chain on which the current (OpenGov) schema is structurally present but
empty, while the legacy schema has an ongoing referendum at index 0. -/
def govBoth : GovChain :=
  ⟨some [], some [⟨some 0, some (.ongoing ⟨some 42⟩)⟩]⟩

/-- C6 counterexample: the claim states legacy is consulted only when the
current schema is structurally unavailable, never merely because it lacks an
ongoing entry at the queried index.  On `govBoth` the current storage exists
(it is `some`), yet `getReferendumDetails 0` returns the legacy proposal
(author `"Democracy"`): the details path falls through to legacy although the
current schema was available. -/
theorem C6_details_fall_through_counterexample :
    govBoth.referenda = some [] ∧
    getReferendumDetails govBoth 0 = some (mkLegacyProposal 0 (infoHex 0) ⟨some 42⟩) ∧
    (getReferendumDetails govBoth 0).map Proposal.author = some "Democracy" ∧
    getActiveProposals govBoth = [] := by
  exact ⟨rfl, by decide, by decide, by decide⟩

/-- C6 (amended): `getActiveProposals` consults legacy only when the current
storage is structurally absent (never because it is empty); in
`getReferendumDetails` an ongoing current entry takes precedence, but legacy
is additionally consulted whenever the current schema has no ongoing entry at
the index; when neither schema has an ongoing entry the result is absent
(`none`), not an error. -/
theorem C6_schema_resolution (c : GovChain) (i : Nat) :
    (∀ entries, c.referenda = some entries →
      getActiveProposals c = parseOpenGovProposals entries) ∧
    (c.referenda = none →
      getActiveProposals c = parseLegacyProposals (c.democracy.getD [])) ∧
    (∀ o, currentOngoingAt c i = some o →
      getReferendumDetails c i = some (mkOpenGovProposal i (infoHex i) o)) ∧
    (currentOngoingAt c i = none → ∀ o, legacyOngoingAt c i = some o →
      getReferendumDetails c i = some (mkLegacyProposal i (infoHex i) o)) ∧
    (currentOngoingAt c i = none → legacyOngoingAt c i = none →
      getReferendumDetails c i = none) := by
  have hchar := getReferendumDetails_eq c i
  refine ⟨?_, ?_, ?_, ?_, ?_⟩
  · intro entries h
    simp [getActiveProposals, h]
  · intro h
    simp [getActiveProposals, h]
  · intro o h
    rw [hchar, h]
  · intro h o hl
    rw [hchar, h, hl]
  · intro h hl
    rw [hchar, h, hl]

/-- A chain whose current schema has an ongoing referendum at index 3. -/
def govCur : GovChain :=
  ⟨some [⟨some 3, some (.ongoing ⟨some 1, some "alice", some 500, some 90⟩)⟩], none⟩

/-- C6 witness: on `govCur` the amended statement yields the current-schema
proposal at index 3. -/
theorem C6_schema_resolution_witness :
    getReferendumDetails govCur 3
      = some (mkOpenGovProposal 3 (infoHex 3) ⟨some 1, some "alice", some 500, some 90⟩) :=
  (C6_schema_resolution govCur 3).2.2.1 ⟨some 1, some "alice", some 500, some 90⟩ (by decide)

/-- `parseOpenGovProposals` is exactly the per-entry decoder filtered of
failures and non-ongoing entries. -/
lemma parseOpenGov_filterMap (l : List (RawEntry RefInfo)) :
    parseOpenGovProposals l = l.filterMap openGovEntry := by
  unfold parseOpenGovProposals
  simp [List.filterMap_map]

/-- `parseLegacyProposals` likewise. -/
lemma parseLegacy_filterMap (l : List (RawEntry LegacyRefInfo)) :
    parseLegacyProposals l = l.filterMap legacyEntry := by
  unfold parseLegacyProposals
  simp [List.filterMap_map]

/-- C7: each storage entry is decoded independently — a decode failure (a
throw in the per-entry `try` body) removes exactly that entry from the
listing, for the OpenGov and the legacy parser alike, and the result is
always the filtered list of successfully decoded ongoing entries (the listing
never aborts). -/
theorem C7_per_entry_decode_isolation
    (l1 l2 : List (RawEntry RefInfo)) (bad : RawEntry RefInfo)
    (hbad : openGovEntryRaw bad = .error ())
    (l3 l4 : List (RawEntry LegacyRefInfo)) (badL : RawEntry LegacyRefInfo)
    (hbadL : legacyEntryRaw badL = .error ()) :
    parseOpenGovProposals (l1 ++ bad :: l2) = parseOpenGovProposals (l1 ++ l2) ∧
    parseOpenGovProposals (l1 ++ l2) = (l1 ++ l2).filterMap openGovEntry ∧
    parseLegacyProposals (l3 ++ badL :: l4) = parseLegacyProposals (l3 ++ l4) ∧
    parseLegacyProposals (l3 ++ l4) = (l3 ++ l4).filterMap legacyEntry := by
  have hnone : openGovEntry bad = none := by
    unfold openGovEntry
    rw [hbad]
  have hnoneL : legacyEntry badL = none := by
    unfold legacyEntry
    rw [hbadL]
  refine ⟨?_, parseOpenGov_filterMap _, ?_, parseLegacy_filterMap _⟩
  · rw [parseOpenGov_filterMap, parseOpenGov_filterMap]
    simp [List.filterMap_append, List.filterMap_cons, hnone]
  · rw [parseLegacy_filterMap, parseLegacy_filterMap]
    simp [List.filterMap_append, List.filterMap_cons, hnoneL]

/-- C7 witness: a malformed entry (storage value `None`, so `unwrap()`
throws) between two good entries is skipped; the good ongoing entries
survive. -/
theorem C7_per_entry_decode_isolation_witness :
    parseOpenGovProposals
        ([⟨some 1, some (.ongoing ⟨some 0, some "bob", some 7, none⟩)⟩]
          ++ (⟨some 2, none⟩ : RawEntry RefInfo)
          :: [⟨some 3, some .finished⟩])
      = parseOpenGovProposals
          ([⟨some 1, some (.ongoing ⟨some 0, some "bob", some 7, none⟩)⟩]
            ++ [⟨some 3, some .finished⟩]) ∧
    parseOpenGovProposals
        ([⟨some 1, some (.ongoing ⟨some 0, some "bob", some 7, none⟩)⟩]
          ++ [⟨some 3, some .finished⟩])
      = (([⟨some 1, some (.ongoing ⟨some 0, some "bob", some 7, none⟩)⟩]
            : List (RawEntry RefInfo))
          ++ ([⟨some 3, some .finished⟩] : List (RawEntry RefInfo))).filterMap
          openGovEntry ∧
    parseLegacyProposals ([] ++ (⟨none, some .finished⟩ : RawEntry LegacyRefInfo) :: [])
      = parseLegacyProposals ([] ++ []) ∧
    parseLegacyProposals ([] ++ [])
      = (([] : List (RawEntry LegacyRefInfo)) ++ []).filterMap legacyEntry :=
  C7_per_entry_decode_isolation
    [⟨some 1, some (.ongoing ⟨some 0, some "bob", some 7, none⟩)⟩]
    [⟨some 3, some .finished⟩] ⟨some 2, none⟩ (by decide)
    [] [] ⟨none, some .finished⟩ (by decide)

/-- Folding exact additions of chunk values equals the sum of the values. -/
lemma foldl_add_value (l : List Chunk) (a : Nat) :
    l.foldl (fun total c => total + c.value) a = a + (l.map Chunk.value).sum := by
  induction l generalizing a with
  | nil => simp
  | cons c cs ih => simp [ih, Nat.add_assoc]

/-- C8: the redeemable amount is the exact integer sum of the values of
precisely the chunks whose era is at most the current era; on the ledger with
chunks `[(100, era 5), (50, era 10)]` it is `100` at era 7, `150` at era 10
and `0` at era 4. -/
theorem C8_redeemable_exact_sum (chunks : List Chunk) (currentEra : Nat) :
    redeemableOf chunks currentEra
      = ((chunks.filter (fun c => c.era ≤ currentEra)).map Chunk.value).sum ∧
    (getStakingInfo (some ⟨0, [⟨100, 5⟩, ⟨50, 10⟩]⟩) none 7).redeemable = 100 ∧
    (getStakingInfo (some ⟨0, [⟨100, 5⟩, ⟨50, 10⟩]⟩) none 10).redeemable = 150 ∧
    (getStakingInfo (some ⟨0, [⟨100, 5⟩, ⟨50, 10⟩]⟩) none 4).redeemable = 0 := by
  refine ⟨?_, by decide, by decide, by decide⟩
  unfold redeemableOf
  rw [foldl_add_value]
  simp

/-- C9 counterexample: the claim states an absent ledger yields the zero view
with no nomination targets.  Nominations are read from the independent
`staking.nominators` query and pass through even when the ledger is absent. -/
theorem C9_absent_ledger_nominations_counterexample :
    getStakingInfo none (some ["validatorA"]) 0 = ⟨0, [], 0, some ["validatorA"]⟩ ∧
    (getStakingInfo none (some ["validatorA"]) 0).nominations ≠ none := by
  exact ⟨rfl, by decide⟩

/-- C9 (amended): an absent ledger yields bonded 0, empty unbonding and
redeemable 0; the nomination targets are whatever the independent nominators
query returned, absent or not. -/
theorem C9_absent_ledger_zero_view (noms : Option (List String)) (currentEra : Nat) :
    getStakingInfo none noms currentEra = ⟨0, [], 0, noms⟩ ∧
    (getStakingInfo none noms currentEra).bonded = 0 ∧
    (getStakingInfo none noms currentEra).unbonding = [] ∧
    (getStakingInfo none noms currentEra).redeemable = 0 ∧
    (getStakingInfo none noms currentEra).nominations = noms :=
  ⟨rfl, rfl, rfl, rfl, rfl⟩

/-- C10: when the conviction-voting pallet is present, `getVotingInfo` issues
the query `votingFor(account, 0)` (track 0) whatever the `referendumIndex`
argument is, so its result is independent of that argument. -/
theorem C10_voting_info_ignores_index (c : VoteChain) (account : String)
    (i j : Nat) (h : c.convictionVotingFor ≠ none) :
    getVotingInfo c account i = getVotingInfo c account j ∧
    votingQueryKey c account i = some (account, 0) ∧
    votingQueryKey c account j = some (account, 0) := by
  cases hc : c.convictionVotingFor with
  | none => exact absurd hc h
  | some f =>
    exact ⟨by simp [getVotingInfo, hc], by simp [votingQueryKey, hc],
      by simp [votingQueryKey, hc]⟩

/-- A chain exposing the conviction-voting pallet. -/
def voteChainW : VoteChain := ⟨some (fun a _ => a ++ ":votes"), none⟩

/-- C10 witness: on `voteChainW` the indices 1 and 99 give the same query and
the same result. -/
theorem C10_voting_info_ignores_index_witness :
    getVotingInfo voteChainW "addr" 1 = getVotingInfo voteChainW "addr" 99 ∧
    votingQueryKey voteChainW "addr" 1 = some ("addr", 0) ∧
    votingQueryKey voteChainW "addr" 99 = some ("addr", 0) :=
  C10_voting_info_ignores_index voteChainW "addr" 1 99 (by simp [voteChainW])

end DotStarter
